import Mathlib

/-!
Shallow embedding of the scylla-ami first-boot configurator
(`scylla_configure.py` and `log.py`) and proofs about its
configuration-merge, user-data parsing, logging and error behavior.

Python dictionaries are embedded as association lists over string keys
with insertion-order update semantics; YAML/JSON values are embedded by
the inductive type `Val`.  External effects (the instance-metadata HTTP
endpoint, `json.loads`, `base64.b64decode`, `int(...)`, and
`subprocess.run`) are inputs of the embedded functions: each theorem
quantifies over their behavior.  Process termination caused by the
`ExitOnExceptionHandler` logging handler (which calls `sys.exit(1)` for
any record at ERROR level or above) is embedded by the `Outcome` type,
and every embedded function also returns the list of log-record levels
it emits, in order.
-/

namespace ScyllaAmi

/-- A YAML/JSON value: scalar, list, or nested mapping. -/
inductive Val where
  | str : String → Val
  | int : Int → Val
  | bool : Bool → Val
  | list : List Val → Val
  | map : List (String × Val) → Val

/-- A Python dict with string keys, embedded as an association list in
insertion order, with no duplicate keys in well-formed values. -/
abbrev Dict := List (String × Val)

/-- Python `d[k]` lookup (as an `Option`): the value at the first
occurrence of `k`. -/
def dictGet : Dict → String → Option Val
  | [], _ => none
  | (k', v') :: rest, k => if k' = k then some v' else dictGet rest k

/-- Python `d[k] = v`: replace the value at the first occurrence of `k`,
or append `(k, v)` when `k` is absent (insertion-order semantics). -/
def dictSet : Dict → String → Val → Dict
  | [], k, v => [(k, v)]
  | (k', v') :: rest, k, v =>
    if k' = k then (k, v) :: rest else (k', v') :: dictSet rest k v

/-- Python `k in d`. -/
def dictMem (d : Dict) (k : String) : Bool :=
  (dictGet d k).isSome

/-- The keys of a dict, in order. -/
def dictKeys (d : Dict) : List String :=
  d.map Prod.fst

/-- Python truthiness of a value (`if value:`). -/
def pyTruthy : Val → Bool
  | Val.str s => !s.isEmpty
  | Val.int n => n != 0
  | Val.bool b => b
  | Val.list l => !l.isEmpty
  | Val.map m => !m.isEmpty

/-- The whitespace characters stripped by Python `str.strip()`. -/
def pyIsSpace (c : Char) : Bool :=
  c == ' ' || c == '\t' || c == '\n' || c == '\r' || c == '\x0b' || c == '\x0c'

/-- Python `s.strip()`: drop leading and trailing whitespace. -/
def pyStrip (s : String) : String :=
  ⟨((s.data.dropWhile pyIsSpace).reverse.dropWhile pyIsSpace).reverse⟩

/-! ### Logging (`log.py` and the Python `logging` module levels) -/

/-- `logging.DEBUG`. -/
def logDEBUG : Nat := 10

/-- `logging.INFO`. -/
def logINFO : Nat := 20

/-- `logging.WARNING`. -/
def logWARNING : Nat := 30

/-- `logging.ERROR`. -/
def logERROR : Nat := 40

/-- `logging.CRITICAL`. -/
def logCRITICAL : Nat := 50

/-- Outcome of running a piece of the configurator: normal return,
process termination with an exit code (`sys.exit`, triggered by
`ExitOnExceptionHandler.emit` on any record at ERROR level or above),
or an uncaught Python exception propagating out. -/
inductive Outcome (α : Type) where
  | ok : α → Outcome α
  | exit : Nat → Outcome α
  | raised : Outcome α
  deriving DecidableEq

/-- `ExitOnExceptionHandler.emit` (log.py lines 10-15): after emitting,
the process exits with code 1 whenever `record.levelno >= logging.ERROR`.
Returns `some code` when the handler terminates the process. -/
def exitOnExceptionHandler_emit (levelno : Nat) : Option Nat :=
  if logERROR ≤ levelno then some 1 else none

/-! ### Metadata client (`get_instance_metadata`)

The HTTP fetch environment is a `FetchResult`: the request succeeded and
the body decoded (`ok body`), the request itself failed (`urlopen`
raised — this happens OUTSIDE the `try` block of the source, which only
wraps `url.read().decode("utf-8")`), or reading/decoding the body
failed inside the `try` block (`decodeFail`). -/

inductive FetchResult where
  | ok : String → FetchResult
  | requestFail : FetchResult
  | decodeFail : FetchResult

/-- `ScyllaAmiConfigurator.get_instance_metadata(path, fail=False)`.
`LOGGER.info("Getting ...")` is emitted before `urlopen`; an `urlopen`
failure propagates (the `try` starts only inside the `with` block); a
read/decode failure is caught: with `fail=True` it logs CRITICAL (the
handler then exits with code 1), otherwise it logs a warning and
returns the empty string. -/
def get_instance_metadata (fetch : FetchResult) (fail : Bool) :
    Outcome String × List Nat :=
  match fetch with
  | FetchResult.ok body => (Outcome.ok body, [logINFO])
  | FetchResult.requestFail => (Outcome.raised, [logINFO])
  | FetchResult.decodeFail =>
    if fail then (Outcome.exit 1, [logINFO, logCRITICAL])
    else (Outcome.ok "", [logINFO, logWARNING])

/-! ### User-data parser (`instance_user_data`)

`json.loads` is an input: `jsonLoads raw = some d` when parsing `raw`
yields the dict `d`, `none` when `json.loads` raises. -/

/-- The body of the `instance_user_data` property on a cache miss
(`self._instance_user_data is None`): fetch `"user-data"` with
`fail=False` inside a `try`, log a DEBUG record, parse the body as JSON
when its stripped form is non-empty (else use `{}`), log a DEBUG
record; any `Exception` (a failed fetch or a failed parse) is caught,
a warning is logged, and `{}` is used. -/
def instance_user_data_compute (jsonLoads : String → Option Dict)
    (fetch : FetchResult) : Outcome Dict × List Nat :=
  match get_instance_metadata fetch false with
  | (Outcome.ok raw, logs) =>
    if (pyStrip raw).data.isEmpty then (Outcome.ok [], logs ++ [logDEBUG, logDEBUG])
    else
      match jsonLoads raw with
      | some d => (Outcome.ok d, logs ++ [logDEBUG, logDEBUG])
      | none => (Outcome.ok [], logs ++ [logDEBUG, logWARNING])
  | (Outcome.raised, logs) => (Outcome.ok [], logs ++ [logWARNING])
  | (Outcome.exit c, logs) => (Outcome.exit c, logs)

/-- One access to the `instance_user_data` property: when
`self._instance_user_data` is not `None` the cached dict is returned
with no computation; otherwise the body runs once and its result is
stored.  Returns (value, new cache, number of fetch-and-parse
computations performed). -/
def instance_user_data_access (jsonLoads : String → Option Dict)
    (fetch : FetchResult) (cache : Option Dict) : Dict × Option Dict × Nat :=
  match cache with
  | some d => (d, some d, 0)
  | none =>
    match instance_user_data_compute jsonLoads fetch with
    | (Outcome.ok d, _) => (d, some d, 1)
    | (Outcome.exit _, _) => ([], none, 1)
    | (Outcome.raised, _) => ([], none, 1)

/-- A sequence of `n` accesses to the `instance_user_data` property,
threading the memo cache; returns the final cache and the total number
of fetch-and-parse computations performed. -/
def instance_user_data_accessChain (jsonLoads : String → Option Dict)
    (fetch : FetchResult) : Nat → Option Dict → Option Dict × Nat
  | 0, cache => (cache, 0)
  | n + 1, cache =>
    let step := instance_user_data_access jsonLoads fetch cache
    let rest := instance_user_data_accessChain jsonLoads fetch n step.2.1
    (rest.1, step.2.2 + rest.2)

/-! ### Class-level defaults and the configuration merge -/

/-- The class attribute `AMI_CONF_DEFAULTS["scylla_yaml"]` as written in
the source, as a function of the `int(time.time())` value captured when
the class body was evaluated. -/
def AMI_CONF_DEFAULTS_scylla_yaml (timestamp : Nat) : Dict :=
  [("cluster_name", Val.str ("scylladb-cluster-" ++ toString timestamp)),
   ("experimental", Val.bool false),
   ("auto_bootstrap", Val.bool false),
   ("listen_address", Val.str ""),
   ("broadcast_rpc_address", Val.str ""),
   ("endpoint_snitch", Val.str "org.apache.cassandra.locator.Ec2Snitch"),
   ("rpc_address", Val.str "0.0.0.0")]

/-- `AMI_CONF_DEFAULTS["post_configuration_script_timeout"]`. -/
def AMI_CONF_DEFAULTS_post_configuration_script_timeout : Val :=
  Val.int 600

/-- The class-level state of `ScyllaAmiConfigurator`: the mutable
`AMI_CONF_DEFAULTS["scylla_yaml"]` dict.  It lives on the class object,
so it is one per process, shared by every instance. -/
structure ClassState where
  amiConfDefaultsScyllaYaml : Dict

/-- The class state as initialized by the class body at import time. -/
def initialClassState (timestamp : Nat) : ClassState :=
  ⟨AMI_CONF_DEFAULTS_scylla_yaml timestamp⟩

/-- The per-instance state set up by `__init__`: the `_scylla_yaml`
cache (starting as `{}`) and the `_instance_user_data` memo (starting
as `None`).  `AMI_CONF_DEFAULTS` is deliberately NOT a field: instances
read and mutate the single class-level dict. -/
structure ScyllaAmiConfigurator where
  scyllaYamlCache : Dict
  userDataCache : Option Dict

/-- The `AMI_CONF_DEFAULTS["scylla_yaml"]` mapping an instance observes:
attribute lookup on `self` resolves to the class attribute, the same
object for every instance of the process. -/
def observed_ami_conf_defaults (cs : ClassState)
    (_inst : ScyllaAmiConfigurator) : Dict :=
  cs.amiConfDefaultsScyllaYaml

/-- `updated_ami_conf_defaults`: item-assignments into
`self.AMI_CONF_DEFAULTS["scylla_yaml"]` mutate the class-level dict in
place, setting `listen_address` and `broadcast_rpc_address` to the
fetched private IP. -/
def updated_ami_conf_defaults (privateIp : String) (cs : ClassState) :
    ClassState :=
  ⟨dictSet (dictSet cs.amiConfDefaultsScyllaYaml "listen_address" (Val.str privateIp))
    "broadcast_rpc_address" (Val.str privateIp)⟩

/-- The filesystem state touched by the merge: the parsed content of
the file at `scylla_yaml_path` and at `scylla_yaml_example_path`
(`none` when the file does not exist).  YAML serialization itself is
out of scope; files are held in parsed form and `yaml.dump` followed by
`yaml.load` is the identity. -/
structure FsState where
  mainFile : Option Dict
  exampleFile : Option Dict

/-- `self.instance_user_data.get("scylla_yaml", {})`: `some` overrides
dict when the key is absent (giving `{}`) or maps to a mapping; `none`
when it maps to a non-mapping value, whose iteration behavior in the
two merge loops is not modelled. -/
def scyllaYamlOverrides (userData : Dict) : Option Dict :=
  match dictGet userData "scylla_yaml" with
  | some (Val.map m) => some m
  | none => some []
  | some _ => none

/-- The first merge loop: `self.scylla_yaml[param] = new_scylla_yaml_config[param]`
for each override entry in order. -/
def setParams (d : Dict) (overrides : Dict) : Dict :=
  overrides.foldl (fun acc kv => dictSet acc kv.1 kv.2) d

/-- The second merge loop: for each key of
`AMI_CONF_DEFAULTS["scylla_yaml"]` in order, when the key is not in the
user-data overrides, `self.scylla_yaml[param] = default value`. -/
def applyDefaults (defaults overrides d : Dict) : Dict :=
  defaults.foldl
    (fun acc kv => if dictMem overrides kv.1 then acc else dictSet acc kv.1 kv.2) d

/-- The result of a successful `configure_scylla_yaml` run. -/
structure ConfigResult where
  classState : ClassState
  fs : FsState
  merged : Dict

/-- `configure_scylla_yaml`, with the private IP already fetched
(`updated_ami_conf_defaults` mutates the class defaults with it): read
the overrides from user data, load the file through the `scylla_yaml`
property (the `cache` argument is `self._scylla_yaml`, `{}` on a fresh
instance; a missing file makes `open` raise, giving `none`), apply the
two merge loops to the loaded dict in place, rename the original file
to the `.example` path, and write the merged dict to the original
path.  `none` embeds an uncaught exception. -/
def configure_scylla_yaml (privateIp : String) (userData : Dict)
    (cs : ClassState) (fs : FsState) (cache : Dict) : Option ConfigResult :=
  let cs1 := updated_ami_conf_defaults privateIp cs
  match scyllaYamlOverrides userData with
  | none => none
  | some overrides =>
    match (if cache.isEmpty then fs.mainFile else some cache) with
    | none => none
    | some loaded =>
      let afterUser := if overrides.isEmpty then loaded else setParams loaded overrides
      let merged := applyDefaults cs1.amiConfDefaultsScyllaYaml overrides afterUser
      some ⟨cs1, ⟨some merged, fs.mainFile⟩, merged⟩

/-! ### Post-configuration script (`run_post_configuration_script`)

`base64.b64decode` and `int(...)` are inputs (`none` embeds a raised
exception); `subprocess.run(script, check=True, shell=True, timeout=t)`
is an input returning a `ScriptExec`. -/

inductive ScriptExec where
  | success : ScriptExec
  | calledProcessError : ScriptExec
  | timeoutExpired : ScriptExec

/-- `run_post_configuration_script`: no-op when the
`post_configuration_script` entry is absent or falsy; otherwise the
timeout is looked up (defaulting to
`AMI_CONF_DEFAULTS["post_configuration_script_timeout"]`), the script
is base64-decoded, an INFO record is logged, and the script runs under
`int(timeout)` seconds.  Every failure inside the `try` (decode error,
`int` error, non-zero exit, timeout) is caught and logged with
`LOGGER.error`, whose emission makes `ExitOnExceptionHandler` terminate
the process with exit code 1. -/
def run_post_configuration_script (userData : Dict)
    (b64decode : Val → Option String) (pyInt : Val → Option Int)
    (runShell : String → Int → ScriptExec) : Outcome Unit × List Nat :=
  match dictGet userData "post_configuration_script" with
  | none => (Outcome.ok (), [])
  | some v =>
    if pyTruthy v then
      let timeoutVal := (dictGet userData "post_configuration_script_timeout").getD
        AMI_CONF_DEFAULTS_post_configuration_script_timeout
      match b64decode v with
      | none => (Outcome.exit 1, [logERROR])
      | some script =>
        match pyInt timeoutVal with
        | none => (Outcome.exit 1, [logINFO, logERROR])
        | some t =>
          match runShell script t with
          | ScriptExec.success => (Outcome.ok (), [logINFO])
          | ScriptExec.calledProcessError => (Outcome.exit 1, [logINFO, logERROR])
          | ScriptExec.timeoutExpired => (Outcome.exit 1, [logINFO, logERROR])
    else (Outcome.ok (), [])

/-! ### Orchestrator (`configure` and the `__main__` entry point) -/

/-- The INFO records of the merge loops and the save: "Setting params
from user-data..." plus one per override when the overrides are
non-empty, one per default actually applied, and "Saving ...". -/
def scylla_yaml_set_logs (overrides defaults : Dict) : List Nat :=
  (if overrides.isEmpty then [] else logINFO :: overrides.map (fun _ => logINFO))
    ++ (defaults.filter (fun kv => !(dictMem overrides kv.1))).map (fun _ => logINFO)
    ++ [logINFO]

/-- A full `configure()` run on a fresh `ScyllaAmiConfigurator`:
`configure_scylla_yaml` (which first fetches the private IP with
`fail=True`, logs "Going to create scylla.yaml...", computes
`instance_user_data` and merges), the no-op steps, then
`run_post_configuration_script` on the memoized user data.  Returns
the final outcome and the concatenated log-record levels (on paths
that end in an uncaught exception, INFO/DEBUG records already emitted
inside the failing step are not tracked exactly; no record at ERROR
level or above is ever omitted or added). -/
def configure_run (ipFetch udFetch : FetchResult)
    (jsonLoads : String → Option Dict) (b64decode : Val → Option String)
    (pyInt : Val → Option Int) (runShell : String → Int → ScriptExec)
    (cs : ClassState) (fs : FsState) : Outcome Unit × List Nat :=
  match get_instance_metadata ipFetch true with
  | (Outcome.exit c, l1) => (Outcome.exit c, l1)
  | (Outcome.raised, l1) => (Outcome.raised, l1)
  | (Outcome.ok ip, l1) =>
    match instance_user_data_compute jsonLoads udFetch with
    | (Outcome.exit c, l2) => (Outcome.exit c, l1 ++ [logINFO] ++ l2)
    | (Outcome.raised, l2) => (Outcome.raised, l1 ++ [logINFO] ++ l2)
    | (Outcome.ok userData, l2) =>
      match configure_scylla_yaml ip userData cs fs [] with
      | none => (Outcome.raised, l1 ++ [logINFO] ++ l2)
      | some r =>
        let mLogs := scylla_yaml_set_logs ((scyllaYamlOverrides userData).getD [])
          r.classState.amiConfDefaultsScyllaYaml
        let s := run_post_configuration_script userData b64decode pyInt runShell
        (s.1, l1 ++ [logINFO] ++ l2 ++ mLogs ++ s.2)

/-- The process exit code of the `__main__` entry point: 0 when
`configure()` returns, the `sys.exit` code when the logging handler
terminated the process, 1 when an uncaught exception reached the
interpreter. -/
def processExitCode : Outcome Unit → Nat
  | Outcome.ok _ => 0
  | Outcome.exit c => c
  | Outcome.raised => 1
/-! ### Lemmas about the dict operations -/

theorem dictGet_cons (a : String) (b : Val) (tl : Dict) (k : String) :
    dictGet ((a, b) :: tl) k = if a = k then some b else dictGet tl k := rfl

theorem dictSet_cons (a : String) (b : Val) (tl : Dict) (k : String) (v : Val) :
    dictSet ((a, b) :: tl) k v =
      if a = k then (k, v) :: tl else (a, b) :: dictSet tl k v := rfl

theorem dictKeys_cons (a : String) (b : Val) (tl : Dict) :
    dictKeys ((a, b) :: tl) = a :: dictKeys tl := rfl

theorem dictGet_dictSet_self (d : Dict) (k : String) (v : Val) :
    dictGet (dictSet d k v) k = some v := by
  induction d with
  | nil => simp [dictSet, dictGet]
  | cons hd tl ih =>
    obtain ⟨a, b⟩ := hd
    rw [dictSet_cons]
    by_cases ha : a = k
    · rw [if_pos ha]
      simp [dictGet]
    · rw [if_neg ha, dictGet_cons, if_neg ha, ih]

theorem dictGet_dictSet_ne (d : Dict) (k' k : String) (v : Val) (h : k' ≠ k) :
    dictGet (dictSet d k' v) k = dictGet d k := by
  induction d with
  | nil => simp [dictSet, dictGet, h]
  | cons hd tl ih =>
    obtain ⟨a, b⟩ := hd
    rw [dictSet_cons]
    by_cases ha : a = k'
    · subst ha
      rw [if_pos rfl, dictGet_cons, if_neg h, dictGet_cons, if_neg h]
    · rw [if_neg ha, dictGet_cons, dictGet_cons]
      by_cases hk : a = k
      · rw [if_pos hk, if_pos hk]
      · rw [if_neg hk, if_neg hk, ih]

theorem mem_keys_of_dictGet_some (d : Dict) (k : String) (v : Val)
    (h : dictGet d k = some v) : k ∈ dictKeys d := by
  induction d with
  | nil => simp [dictGet] at h
  | cons hd tl ih =>
    obtain ⟨a, b⟩ := hd
    rw [dictKeys_cons]
    by_cases ha : a = k
    · exact ha ▸ List.mem_cons_self a (dictKeys tl)
    · rw [dictGet_cons, if_neg ha] at h
      exact List.mem_cons_of_mem a (ih h)

theorem setParams_cons (d : Dict) (a : String) (b : Val) (tl : Dict) :
    setParams d ((a, b) :: tl) = setParams (dictSet d a b) tl := rfl

theorem applyDefaults_cons (a : String) (b : Val) (tl overrides d : Dict) :
    applyDefaults ((a, b) :: tl) overrides d =
      applyDefaults tl overrides
        (if dictMem overrides a then d else dictSet d a b) := rfl

/-- Keys absent from the overrides are untouched by the first merge loop. -/
theorem dictGet_setParams_not_mem (d overrides : Dict) (k : String)
    (h : dictMem overrides k = false) :
    dictGet (setParams d overrides) k = dictGet d k := by
  induction overrides generalizing d with
  | nil => simp [setParams]
  | cons hd tl ih =>
    obtain ⟨a, b⟩ := hd
    by_cases ha : a = k
    · exfalso
      simp [dictMem, dictGet_cons, ha] at h
    · have htl : dictMem tl k = false := by
        simpa [dictMem, dictGet_cons, ha] using h
      rw [setParams_cons, ih (dictSet d a b) htl, dictGet_dictSet_ne d a k b ha]

/-- A key present in duplicate-free overrides ends up with its override
value after the first merge loop. -/
theorem dictGet_setParams_mem (d overrides : Dict) (k : String) (v : Val)
    (hnd : (dictKeys overrides).Nodup) (h : dictGet overrides k = some v) :
    dictGet (setParams d overrides) k = some v := by
  induction overrides generalizing d with
  | nil => simp [dictGet] at h
  | cons hd tl ih =>
    obtain ⟨a, b⟩ := hd
    rw [dictKeys_cons, List.nodup_cons] at hnd
    by_cases ha : a = k
    · subst ha
      rw [dictGet_cons, if_pos rfl, Option.some_inj] at h
      subst h
      have htl : dictMem tl a = false := by
        cases hmem : dictGet tl a with
        | none => simp [dictMem, hmem]
        | some w => exact absurd (mem_keys_of_dictGet_some tl a w hmem) hnd.1
      rw [setParams_cons, dictGet_setParams_not_mem (dictSet d a b) tl a htl,
        dictGet_dictSet_self]
    · rw [dictGet_cons, if_neg ha] at h
      rw [setParams_cons]
      exact ih (dictSet d a b) hnd.2 h

/-- A key present in the overrides is untouched by the second merge loop. -/
theorem dictGet_applyDefaults_overridden (defaults overrides d : Dict)
    (k : String) (h : dictMem overrides k = true) :
    dictGet (applyDefaults defaults overrides d) k = dictGet d k := by
  induction defaults generalizing d with
  | nil => simp [applyDefaults]
  | cons hd tl ih =>
    obtain ⟨a, b⟩ := hd
    rw [applyDefaults_cons]
    by_cases hm : dictMem overrides a = true
    · rw [if_pos hm]
      exact ih d
    · rw [if_neg hm]
      have ha : a ≠ k := fun he => hm (he ▸ h)
      rw [ih (dictSet d a b), dictGet_dictSet_ne d a k b ha]

/-- Keys absent from the defaults are untouched by the second merge loop. -/
theorem dictGet_applyDefaults_not_mem (defaults overrides d : Dict)
    (k : String) (h : k ∉ dictKeys defaults) :
    dictGet (applyDefaults defaults overrides d) k = dictGet d k := by
  induction defaults generalizing d with
  | nil => simp [applyDefaults]
  | cons hd tl ih =>
    obtain ⟨a, b⟩ := hd
    rw [dictKeys_cons] at h
    simp only [List.mem_cons, not_or] at h
    rw [applyDefaults_cons]
    by_cases hm : dictMem overrides a = true
    · rw [if_pos hm]
      exact ih d h.2
    · rw [if_neg hm, ih (dictSet d a b) h.2,
        dictGet_dictSet_ne d a k b (Ne.symm h.1)]

/-- A default key not overridden by user data ends up with its default
value after the second merge loop (duplicate-free defaults). -/
theorem dictGet_applyDefaults_default (defaults overrides d : Dict)
    (k : String) (dv : Val)
    (hnd : (dictKeys defaults).Nodup) (hget : dictGet defaults k = some dv)
    (hov : dictMem overrides k = false) :
    dictGet (applyDefaults defaults overrides d) k = some dv := by
  induction defaults generalizing d with
  | nil => simp [dictGet] at hget
  | cons hd tl ih =>
    obtain ⟨a, b⟩ := hd
    rw [dictKeys_cons, List.nodup_cons] at hnd
    rw [applyDefaults_cons]
    by_cases ha : a = k
    · subst ha
      rw [dictGet_cons, if_pos rfl, Option.some_inj] at hget
      subst hget
      rw [if_neg (by simp [hov]), dictGet_applyDefaults_not_mem tl overrides
        (dictSet d a b) a hnd.1, dictGet_dictSet_self]
    · rw [dictGet_cons, if_neg ha] at hget
      by_cases hm : dictMem overrides a = true
      · rw [if_pos hm]
        exact ih d hnd.2 hget
      · rw [if_neg hm]
        exact ih (dictSet d a b) hnd.2 hget

/-! ### The merge: shape of a successful `configure_scylla_yaml` run -/

/-- Shape of the result of `configure_scylla_yaml` on a fresh instance
when the overrides are well-formed and the file exists. -/
theorem configure_scylla_yaml_some (ip : String) (ud : Dict) (cs : ClassState)
    (fs : FsState) (loaded ov : Dict)
    (hov : scyllaYamlOverrides ud = some ov) (hfile : fs.mainFile = some loaded) :
    configure_scylla_yaml ip ud cs fs [] =
      some ⟨updated_ami_conf_defaults ip cs,
        ⟨some (applyDefaults (updated_ami_conf_defaults ip cs).amiConfDefaultsScyllaYaml
            ov (if ov.isEmpty then loaded else setParams loaded ov)), some loaded⟩,
        applyDefaults (updated_ami_conf_defaults ip cs).amiConfDefaultsScyllaYaml
            ov (if ov.isEmpty then loaded else setParams loaded ov)⟩ := by
  simp [configure_scylla_yaml, hov, hfile]

/-- Claim C1: for every user-data mapping whose `scylla_yaml` overrides
contain a key, after `configure_scylla_yaml` runs the persisted value
for that key equals the user-supplied override value exactly, with no
coercion, overriding both the built-in default and the prior file
content (the loaded file and the class defaults are arbitrary). -/
theorem user_override_wins (ip : String) (ud ov loaded : Dict) (cs : ClassState)
    (fs : FsState) (k : String) (v : Val) (r : ConfigResult)
    (hov : dictGet ud "scylla_yaml" = some (Val.map ov))
    (hnd : (dictKeys ov).Nodup)
    (hk : dictGet ov k = some v)
    (hfile : fs.mainFile = some loaded)
    (hrun : configure_scylla_yaml ip ud cs fs [] = some r) :
    r.fs.mainFile = some r.merged ∧ dictGet r.merged k = some v := by
  have hov' : scyllaYamlOverrides ud = some ov := by simp [scyllaYamlOverrides, hov]
  rw [configure_scylla_yaml_some ip ud cs fs loaded ov hov' hfile] at hrun
  injection hrun with h
  subst h
  have hmem : dictMem ov k = true := by rw [dictMem, hk]; rfl
  have hne : ov.isEmpty = false := by
    cases ov with
    | nil => simp [dictGet] at hk
    | cons a t => rfl
  refine ⟨rfl, ?_⟩
  simp only [hne, Bool.false_eq_true, if_false]
  rw [dictGet_applyDefaults_overridden _ ov _ k hmem,
    dictGet_setParams_mem loaded ov k v hnd hk]

/-- Witness merged dict for the C1 theorem. -/
def witnessMergedC1 : Dict :=
  [("cluster_name", Val.str "test-cluster"),
   ("listen_address", Val.str "10.0.0.1"),
   ("broadcast_rpc_address", Val.str "10.0.0.1")]

/-- Witness run result for the C1 theorem. -/
def witnessResultC1 : ConfigResult :=
  ⟨⟨[("listen_address", Val.str "10.0.0.1"),
     ("broadcast_rpc_address", Val.str "10.0.0.1")]⟩,
   ⟨some witnessMergedC1, some [("cluster_name", Val.str "old")]⟩,
   witnessMergedC1⟩

theorem user_override_wins_witness :
    witnessResultC1.fs.mainFile = some witnessResultC1.merged ∧
    dictGet witnessResultC1.merged "cluster_name" = some (Val.str "test-cluster") :=
  user_override_wins "10.0.0.1"
    [("scylla_yaml", Val.map [("cluster_name", Val.str "test-cluster")])]
    [("cluster_name", Val.str "test-cluster")]
    [("cluster_name", Val.str "old")]
    ⟨[]⟩ ⟨some [("cluster_name", Val.str "old")], none⟩
    "cluster_name" (Val.str "test-cluster") witnessResultC1
    rfl (by decide) rfl rfl rfl

/-- Claim C2: for every key present in the defaults mapping (as it
stands when the defaults loop runs, i.e. after the private IP has been
written into it) but absent from the user-data overrides, the persisted
value equals that default value, even when the loaded file already had
a different value for the key (the loaded file is arbitrary). -/
theorem defaults_override_file (ip : String) (ud ov loaded : Dict)
    (cs : ClassState) (fs : FsState) (k : String) (dv : Val) (r : ConfigResult)
    (hov : scyllaYamlOverrides ud = some ov)
    (hnd : (dictKeys (updated_ami_conf_defaults ip cs).amiConfDefaultsScyllaYaml).Nodup)
    (hdv : dictGet (updated_ami_conf_defaults ip cs).amiConfDefaultsScyllaYaml k = some dv)
    (hkov : dictMem ov k = false)
    (hfile : fs.mainFile = some loaded)
    (hrun : configure_scylla_yaml ip ud cs fs [] = some r) :
    r.fs.mainFile = some r.merged ∧ dictGet r.merged k = some dv := by
  rw [configure_scylla_yaml_some ip ud cs fs loaded ov hov hfile] at hrun
  injection hrun with h
  subst h
  exact ⟨rfl, dictGet_applyDefaults_default _ ov _ k dv hnd hdv hkov⟩

/-- Witness merged dict for the C2 theorem. -/
def witnessMergedC2 : Dict :=
  [("experimental", Val.bool false),
   ("listen_address", Val.str "10.0.0.1"),
   ("broadcast_rpc_address", Val.str "10.0.0.1")]

/-- Witness run result for the C2 theorem: the loaded file had
`experimental: true`, the default `false` wins. -/
def witnessResultC2 : ConfigResult :=
  ⟨⟨witnessMergedC2⟩,
   ⟨some witnessMergedC2, some [("experimental", Val.bool true)]⟩,
   witnessMergedC2⟩

theorem defaults_override_file_witness :
    witnessResultC2.fs.mainFile = some witnessResultC2.merged ∧
    dictGet witnessResultC2.merged "experimental" = some (Val.bool false) :=
  defaults_override_file "10.0.0.1" [] [] [("experimental", Val.bool true)]
    ⟨[("experimental", Val.bool false)]⟩
    ⟨some [("experimental", Val.bool true)], none⟩
    "experimental" (Val.bool false) witnessResultC2
    rfl (by decide) rfl rfl rfl rfl

/-- Claim C3: every key of the loaded file that is neither in the
user-data overrides nor in the defaults mapping has, in the rewritten
file, the same value it had in the file before the merge. -/
theorem untouched_keys_preserved (ip : String) (ud ov loaded : Dict)
    (cs : ClassState) (fs : FsState) (k : String) (r : ConfigResult)
    (hov : scyllaYamlOverrides ud = some ov)
    (hkov : dictMem ov k = false)
    (hkdf : k ∉ dictKeys (updated_ami_conf_defaults ip cs).amiConfDefaultsScyllaYaml)
    (hfile : fs.mainFile = some loaded)
    (hrun : configure_scylla_yaml ip ud cs fs [] = some r) :
    r.fs.mainFile = some r.merged ∧ dictGet r.merged k = dictGet loaded k := by
  rw [configure_scylla_yaml_some ip ud cs fs loaded ov hov hfile] at hrun
  injection hrun with h
  subst h
  refine ⟨rfl, ?_⟩
  rw [dictGet_applyDefaults_not_mem _ ov _ k hkdf]
  by_cases he : ov.isEmpty = true
  · simp only [he, if_true]
  · simp only [he, Bool.false_eq_true, if_false]
    exact dictGet_setParams_not_mem loaded ov k hkov

/-- Witness merged dict for the C3 theorem. -/
def witnessMergedC3 : Dict :=
  [("num_tokens", Val.int 256),
   ("listen_address", Val.str "10.0.0.1"),
   ("broadcast_rpc_address", Val.str "10.0.0.1")]

/-- Witness run result for the C3 theorem. -/
def witnessResultC3 : ConfigResult :=
  ⟨⟨[("listen_address", Val.str "10.0.0.1"),
     ("broadcast_rpc_address", Val.str "10.0.0.1")]⟩,
   ⟨some witnessMergedC3, some [("num_tokens", Val.int 256)]⟩,
   witnessMergedC3⟩

theorem untouched_keys_preserved_witness :
    witnessResultC3.fs.mainFile = some witnessResultC3.merged ∧
    dictGet witnessResultC3.merged "num_tokens" =
      dictGet [("num_tokens", Val.int 256)] "num_tokens" :=
  untouched_keys_preserved "10.0.0.1" [] [] [("num_tokens", Val.int 256)]
    ⟨[]⟩ ⟨some [("num_tokens", Val.int 256)], none⟩ "num_tokens" witnessResultC3
    rfl rfl (by decide) rfl rfl

/-- Claim C9: after every successful `configure_scylla_yaml` run the
`.example` file exists and its content is exactly the on-disk content
of the main file as it was immediately before the run's merge. -/
theorem example_backup_preserved (ip : String) (ud : Dict) (cs : ClassState)
    (fs : FsState) (r : ConfigResult)
    (hrun : configure_scylla_yaml ip ud cs fs [] = some r) :
    r.fs.exampleFile = fs.mainFile ∧ fs.mainFile.isSome = true := by
  simp only [configure_scylla_yaml] at hrun
  split at hrun
  · exact absurd hrun (by simp)
  · split at hrun
    · exact absurd hrun (by simp)
    · next loaded hfl =>
      injection hrun with h
      subst h
      refine ⟨rfl, ?_⟩
      have hmf : fs.mainFile = some loaded := by simpa using hfl
      simp [hmf]

/-- Witness run result for the C9 theorem. -/
def witnessResultC9 : ConfigResult :=
  ⟨⟨[("listen_address", Val.str "10.0.0.1"),
     ("broadcast_rpc_address", Val.str "10.0.0.1")]⟩,
   ⟨some [("listen_address", Val.str "10.0.0.1"),
          ("broadcast_rpc_address", Val.str "10.0.0.1")], some []⟩,
   [("listen_address", Val.str "10.0.0.1"),
    ("broadcast_rpc_address", Val.str "10.0.0.1")]⟩

theorem example_backup_preserved_witness :
    witnessResultC9.fs.exampleFile = (⟨some [], none⟩ : FsState).mainFile ∧
    (⟨some [], none⟩ : FsState).mainFile.isSome = true :=
  example_backup_preserved "10.0.0.1" [] ⟨[]⟩ ⟨some [], none⟩ witnessResultC9 rfl

/-- Claim C10: `configure_scylla_yaml` mutates the class-level defaults
mapping in place: after any instance runs it, the entries for
`listen_address` and `broadcast_rpc_address` equal the private IP
fetched by that run, and — since the mapping lives on the class — every
other configurator instance of the process observes this mutated
state. -/
theorem class_defaults_shared_mutation (ip : String) (ud : Dict)
    (cs : ClassState) (fs : FsState) (cache : Dict) (r : ConfigResult)
    (hrun : configure_scylla_yaml ip ud cs fs cache = some r)
    (other : ScyllaAmiConfigurator) :
    dictGet (observed_ami_conf_defaults r.classState other) "listen_address"
      = some (Val.str ip) ∧
    dictGet (observed_ami_conf_defaults r.classState other) "broadcast_rpc_address"
      = some (Val.str ip) := by
  have hcs : r.classState = updated_ami_conf_defaults ip cs := by
    simp only [configure_scylla_yaml] at hrun
    split at hrun
    · exact absurd hrun (by simp)
    · split at hrun
      · exact absurd hrun (by simp)
      · injection hrun with h
        subst h
        rfl
  rw [hcs]
  unfold observed_ami_conf_defaults updated_ami_conf_defaults
  constructor
  · rw [dictGet_dictSet_ne _ _ _ _ (by decide), dictGet_dictSet_self]
  · rw [dictGet_dictSet_self]

/-- Witness run result for the C10 theorem. -/
def witnessResultC10 : ConfigResult :=
  ⟨⟨[("listen_address", Val.str "10.0.0.1"),
     ("broadcast_rpc_address", Val.str "10.0.0.1")]⟩,
   ⟨some [("listen_address", Val.str "10.0.0.1"),
          ("broadcast_rpc_address", Val.str "10.0.0.1")], some []⟩,
   [("listen_address", Val.str "10.0.0.1"),
    ("broadcast_rpc_address", Val.str "10.0.0.1")]⟩

theorem class_defaults_shared_mutation_witness :
    dictGet (observed_ami_conf_defaults witnessResultC10.classState ⟨[], none⟩)
      "listen_address" = some (Val.str "10.0.0.1") ∧
    dictGet (observed_ami_conf_defaults witnessResultC10.classState ⟨[], none⟩)
      "broadcast_rpc_address" = some (Val.str "10.0.0.1") :=
  class_defaults_shared_mutation "10.0.0.1" [] ⟨[]⟩ ⟨some [], none⟩ []
    witnessResultC10 rfl ⟨[], none⟩

/-! ### User-data parsing and memoization (claims C4 and C5) -/

/-- The `instance_user_data` body never ends in an exception or a
process exit: with `fail=False` the metadata fetch never logs at
CRITICAL, an `urlopen` failure raised out of `get_instance_metadata` is
caught by the surrounding `except Exception`, and so is a `json.loads`
failure. -/
theorem instance_user_data_compute_ok (jsonLoads : String → Option Dict)
    (fetch : FetchResult) :
    ∃ d, (instance_user_data_compute jsonLoads fetch).1 = Outcome.ok d := by
  cases fetch with
  | ok raw =>
    simp only [instance_user_data_compute, get_instance_metadata]
    by_cases hs : (pyStrip raw).data.isEmpty = true
    · exact ⟨[], by simp [hs]⟩
    · cases hjl : jsonLoads raw with
      | none => exact ⟨[], by simp [hs, hjl]⟩
      | some d => exact ⟨d, by simp [hs, hjl]⟩
  | requestFail => exact ⟨[], rfl⟩
  | decodeFail => exact ⟨[], rfl⟩

/-- Claim C4: for every raw user-data body (and every behavior of
`json.loads`), accessing `instance_user_data` never raises out of the
configurator; when the stripped body is empty the result is the empty
mapping, and when JSON parsing fails a warning is logged and the result
falls back to the empty mapping. -/
theorem instance_user_data_never_raises (jsonLoads : String → Option Dict)
    (fetch : FetchResult) :
    (∃ d, (instance_user_data_compute jsonLoads fetch).1 = Outcome.ok d) ∧
    (∀ raw, fetch = FetchResult.ok raw → (pyStrip raw).data.isEmpty = true →
      (instance_user_data_compute jsonLoads fetch).1 = Outcome.ok []) ∧
    (∀ raw, fetch = FetchResult.ok raw → (pyStrip raw).data.isEmpty = false →
      jsonLoads raw = none →
      (instance_user_data_compute jsonLoads fetch).1 = Outcome.ok [] ∧
      logWARNING ∈ (instance_user_data_compute jsonLoads fetch).2) := by
  refine ⟨instance_user_data_compute_ok jsonLoads fetch, ?_, ?_⟩
  · intro raw hf hs
    subst hf
    simp [instance_user_data_compute, get_instance_metadata, hs]
  · intro raw hf hs hjl
    subst hf
    constructor
    · simp [instance_user_data_compute, get_instance_metadata, hs, hjl]
    · simp [instance_user_data_compute, get_instance_metadata, hs, hjl, logWARNING]

theorem instance_user_data_never_raises_witness :
    (instance_user_data_compute (fun _ => none) (FetchResult.ok "not json")).1
      = Outcome.ok [] ∧
    logWARNING ∈
      (instance_user_data_compute (fun _ => none) (FetchResult.ok "not json")).2 :=
  (instance_user_data_never_raises (fun _ => none) (FetchResult.ok "not json")).2.2
    "not json" rfl (by decide) rfl

/-- Any number of accesses to an already memoized `instance_user_data`
returns the memoized dict, never recomputes, and leaves the memo
unchanged. -/
theorem instance_user_data_accessChain_cached (jsonLoads : String → Option Dict)
    (fetch : FetchResult) (d : Dict) (n : Nat) :
    instance_user_data_accessChain jsonLoads fetch n (some d) = (some d, 0) := by
  induction n with
  | zero => rfl
  | succ n ih => simp [instance_user_data_accessChain, instance_user_data_access, ih]

/-- Claim C5: within one process, for every user-data environment, the
fetch-and-parse computation of `instance_user_data` runs at most once:
over any number `n` of accesses starting from the fresh `None` memo the
computation runs `min n 1` times, and once the memo holds a dict every
further access returns exactly that dict with zero computations. -/
theorem instance_user_data_memoized (jsonLoads : String → Option Dict)
    (fetch : FetchResult) (n : Nat) :
    (instance_user_data_accessChain jsonLoads fetch n none).2 = min n 1 ∧
    (∀ d, instance_user_data_access jsonLoads fetch (some d) = (d, some d, 0)) ∧
    (∀ d m, instance_user_data_accessChain jsonLoads fetch m (some d) = (some d, 0)) := by
  refine ⟨?_, fun d => rfl, fun d m => instance_user_data_accessChain_cached _ _ d m⟩
  cases n with
  | zero => rfl
  | succ n =>
    obtain ⟨d, hd⟩ := instance_user_data_compute_ok jsonLoads fetch
    have hstep : instance_user_data_access jsonLoads fetch none = (d, some d, 1) := by
      simp only [instance_user_data_access]
      cases hc : instance_user_data_compute jsonLoads fetch with
      | mk o logs =>
        rw [hc] at hd
        simp only at hd
        subst hd
        rfl
    simp [instance_user_data_accessChain, hstep,
      instance_user_data_accessChain_cached jsonLoads fetch d n]

/-! ### Post-configuration script decode failure (claim C6) -/

/-- Counterexample to claim C6 as stated: with a `post_configuration_script`
value on which `base64.b64decode` raises, the run does not continue —
the `LOGGER.error` call makes `ExitOnExceptionHandler` terminate the
process with exit code 1.  The concrete value is the one-character
string `"a"`: `b64decode` (with its default `validate=False`) keeps it
as one data character, and one data character modulo four raises a
`binascii.Error` (invalid padding), so the decode oracle returns `none`
at it. -/
theorem bad_base64_process_continues_counterexample :
    (run_post_configuration_script [("post_configuration_script", Val.str "a")]
      (fun _ => none) (fun _ => some 600) (fun _ _ => ScriptExec.success)).1
      = Outcome.exit 1 ∧
    (run_post_configuration_script [("post_configuration_script", Val.str "a")]
      (fun _ => none) (fun _ => some 600) (fun _ _ => ScriptExec.success)).1
      ≠ Outcome.ok () := by
  decide

/-- Claim C6 (amended): for every user-data mapping whose truthy
`post_configuration_script` value makes `base64.b64decode` raise (with
the default `validate=False` this means invalid padding after
non-alphabet characters are discarded, e.g. `"a"`), the decoding
failure is caught, logged at ERROR severity, no script is executed (the
result does not depend on the shell-execution environment), and —
because the logging layer escalates error-level records — the process
terminates with exit code 1. -/
theorem bad_base64_logs_error_and_exits (ud : Dict)
    (b64decode : Val → Option String) (pyInt : Val → Option Int)
    (runShell : String → Int → ScriptExec) (v : Val)
    (hget : dictGet ud "post_configuration_script" = some v)
    (htruthy : pyTruthy v = true)
    (hdec : b64decode v = none) :
    run_post_configuration_script ud b64decode pyInt runShell
      = (Outcome.exit 1, [logERROR]) ∧
    ∀ runShell2, run_post_configuration_script ud b64decode pyInt runShell2
      = run_post_configuration_script ud b64decode pyInt runShell := by
  have h1 : ∀ rs, run_post_configuration_script ud b64decode pyInt rs
      = (Outcome.exit 1, [logERROR]) := by
    intro rs
    simp [run_post_configuration_script, hget, htruthy, hdec]
  exact ⟨h1 runShell, fun rs2 => (h1 rs2).trans (h1 runShell).symm⟩

theorem bad_base64_logs_error_and_exits_witness :
    run_post_configuration_script [("post_configuration_script", Val.str "a")]
      (fun _ => none) (fun _ => some 600) (fun _ _ => ScriptExec.success)
      = (Outcome.exit 1, [logERROR]) :=
  (bad_base64_logs_error_and_exits [("post_configuration_script", Val.str "a")]
    (fun _ => none) (fun _ => some 600) (fun _ _ => ScriptExec.success)
    (Val.str "a") rfl rfl rfl).1

/-! ### Metadata fetch failures (claim C8) -/

/-- Counterexample to claim C8 as stated: when the HTTP request itself
fails (`urlopen` raises) with `required=False`, `get_instance_metadata`
does not log a warning and does not return an empty string — the
exception propagates uncaught, because the `try` block of the source
only wraps `url.read().decode("utf-8")`. -/
theorem request_failure_claim_counterexample :
    (get_instance_metadata FetchResult.requestFail false).1 ≠ Outcome.ok "" ∧
    logWARNING ∉ (get_instance_metadata FetchResult.requestFail false).2 ∧
    (get_instance_metadata FetchResult.requestFail false).1 = Outcome.raised := by
  decide

/-- Claim C8 (amended): when reading or decoding the response body
fails, `get_instance_metadata` with `required=False` logs a warning and
returns the empty string, and with `required=True` logs at CRITICAL
severity, upon which the logging handler terminates the process with
exit code 1; but when the HTTP request itself fails, the exception
propagates uncaught out of `get_instance_metadata` regardless of the
`required` flag. -/
theorem metadata_failure_behavior :
    get_instance_metadata FetchResult.decodeFail false
      = (Outcome.ok "", [logINFO, logWARNING]) ∧
    get_instance_metadata FetchResult.decodeFail true
      = (Outcome.exit 1, [logINFO, logCRITICAL]) ∧
    ∀ fail, (get_instance_metadata FetchResult.requestFail fail).1 = Outcome.raised :=
  ⟨rfl, rfl, fun _ => rfl⟩

/-! ### The logging exit contract (claim C7) -/

/-- The contract enforced by `ExitOnExceptionHandler`: whenever a
record at ERROR level or above appears among the emitted records, the
computation ended in `sys.exit(1)`. -/
def HandlerContract {α : Type} (p : Outcome α × List Nat) : Prop :=
  ∀ lv, lv ∈ p.2 → logERROR ≤ lv → p.1 = Outcome.exit 1

theorem handlerContract_get_instance_metadata (f : FetchResult) (b : Bool) :
    HandlerContract (get_instance_metadata f b) := by
  intro lv hm hge
  cases f with
  | ok body =>
    simp [get_instance_metadata, logINFO, logERROR] at hm hge
    omega
  | requestFail =>
    simp [get_instance_metadata, logINFO, logERROR] at hm hge
    omega
  | decodeFail =>
    cases b with
    | true => rfl
    | false =>
      simp [get_instance_metadata, logINFO, logWARNING, logERROR] at hm hge
      omega

theorem handlerContract_instance_user_data (jsonLoads : String → Option Dict)
    (f : FetchResult) :
    HandlerContract (instance_user_data_compute jsonLoads f) := by
  intro lv hm hge
  cases f with
  | ok raw =>
    by_cases hs : (pyStrip raw).data.isEmpty = true
    · simp [instance_user_data_compute, get_instance_metadata, hs,
        logINFO, logDEBUG, logERROR] at hm hge
      omega
    · cases hjl : jsonLoads raw with
      | some d =>
        simp [instance_user_data_compute, get_instance_metadata, hs, hjl,
          logINFO, logDEBUG, logERROR] at hm hge
        omega
      | none =>
        simp [instance_user_data_compute, get_instance_metadata, hs, hjl,
          logINFO, logDEBUG, logWARNING, logERROR] at hm hge
        omega
  | requestFail =>
    simp [instance_user_data_compute, get_instance_metadata,
      logINFO, logWARNING, logERROR] at hm hge
    omega
  | decodeFail =>
    simp [instance_user_data_compute, get_instance_metadata,
      show (pyStrip "").data.isEmpty = true from rfl,
      logINFO, logWARNING, logDEBUG, logERROR] at hm hge
    omega

theorem handlerContract_run_post_configuration_script (ud : Dict)
    (b64decode : Val → Option String) (pyInt : Val → Option Int)
    (runShell : String → Int → ScriptExec) :
    HandlerContract (run_post_configuration_script ud b64decode pyInt runShell) := by
  cases hg : dictGet ud "post_configuration_script" with
  | none =>
    intro lv hm hge
    simp [run_post_configuration_script, hg] at hm
  | some v =>
    by_cases ht : pyTruthy v = true
    · cases hd : b64decode v with
      | none =>
        intro lv hm hge
        simp [run_post_configuration_script, hg, ht, hd]
      | some script =>
        cases hti : pyInt ((dictGet ud "post_configuration_script_timeout").getD
            AMI_CONF_DEFAULTS_post_configuration_script_timeout) with
        | none =>
          intro lv hm hge
          simp [run_post_configuration_script, hg, ht, hd, hti]
        | some t =>
          cases hrs : runShell script t with
          | success =>
            intro lv hm hge
            simp [run_post_configuration_script, hg, ht, hd, hti, hrs,
              logINFO, logERROR] at hm hge
            omega
          | calledProcessError =>
            intro lv hm hge
            simp [run_post_configuration_script, hg, ht, hd, hti, hrs]
          | timeoutExpired =>
            intro lv hm hge
            simp [run_post_configuration_script, hg, ht, hd, hti, hrs]
    · intro lv hm hge
      simp [run_post_configuration_script, hg, ht] at hm

theorem scylla_yaml_set_logs_all_info (ov ds : Dict) (lv : Nat)
    (hm : lv ∈ scylla_yaml_set_logs ov ds) : lv = logINFO := by
  unfold scylla_yaml_set_logs at hm
  rcases List.mem_append.mp hm with h | h
  · rcases List.mem_append.mp h with h2 | h2
    · split at h2
      · simp at h2
      · rcases List.mem_cons.mp h2 with h3 | h3
        · exact h3
        · obtain ⟨x, _, hx⟩ := List.mem_map.mp h3
          exact hx.symm
    · obtain ⟨x, _, hx⟩ := List.mem_map.mp h2
      exact hx.symm
  · simpa using h

/-- A full `configure()` run obeys the handler contract: any record at
ERROR level or above forces termination with exit code 1. -/
theorem handlerContract_configure_run (ipF udF : FetchResult)
    (jsonLoads : String → Option Dict) (b64decode : Val → Option String)
    (pyInt : Val → Option Int) (runShell : String → Int → ScriptExec)
    (cs : ClassState) (fs : FsState) :
    HandlerContract (configure_run ipF udF jsonLoads b64decode pyInt runShell cs fs) := by
  intro lv hm hge
  cases h1 : get_instance_metadata ipF true with
  | mk o1 l1 =>
    cases o1 with
    | exit c =>
      have hc := handlerContract_get_instance_metadata ipF true lv
        (by rw [h1]; exact by simpa [configure_run, h1] using hm) hge
      rw [h1] at hc
      simp only at hc
      simp [configure_run, h1, hc]
    | raised =>
      have hc := handlerContract_get_instance_metadata ipF true lv
        (by rw [h1]; exact by simpa [configure_run, h1] using hm) hge
      rw [h1] at hc
      exact absurd hc (by simp)
    | ok ip =>
      cases h2 : instance_user_data_compute jsonLoads udF with
      | mk o2 l2 =>
        cases o2 with
        | exit c =>
          simp only [configure_run, h1, h2] at hm ⊢
          rcases List.mem_append.mp hm with hmm | hmm
          · rcases List.mem_append.mp hmm with hm1 | hm1
            · have hc := handlerContract_get_instance_metadata ipF true lv
                (by rw [h1]; exact hm1) hge
              rw [h1] at hc
              exact absurd hc (by simp)
            · simp [logINFO, logERROR] at hm1 hge
              omega
          · have hc := handlerContract_instance_user_data jsonLoads udF lv
              (by rw [h2]; exact hmm) hge
            rw [h2] at hc
            simpa using hc
        | raised =>
          simp only [configure_run, h1, h2] at hm ⊢
          rcases List.mem_append.mp hm with hmm | hmm
          · rcases List.mem_append.mp hmm with hm1 | hm1
            · have hc := handlerContract_get_instance_metadata ipF true lv
                (by rw [h1]; exact hm1) hge
              rw [h1] at hc
              exact absurd hc (by simp)
            · simp [logINFO, logERROR] at hm1 hge
              omega
          · have hc := handlerContract_instance_user_data jsonLoads udF lv
              (by rw [h2]; exact hmm) hge
            rw [h2] at hc
            exact absurd hc (by simp)
        | ok userData =>
          cases h3 : configure_scylla_yaml ip userData cs fs [] with
          | none =>
            simp only [configure_run, h1, h2, h3] at hm ⊢
            rcases List.mem_append.mp hm with hmm | hmm
            · rcases List.mem_append.mp hmm with hm1 | hm1
              · have hc := handlerContract_get_instance_metadata ipF true lv
                  (by rw [h1]; exact hm1) hge
                rw [h1] at hc
                exact absurd hc (by simp)
              · simp [logINFO, logERROR] at hm1 hge
                omega
            · have hc := handlerContract_instance_user_data jsonLoads udF lv
                (by rw [h2]; exact hmm) hge
              rw [h2] at hc
              exact absurd hc (by simp)
          | some r =>
            simp only [configure_run, h1, h2, h3] at hm ⊢
            rcases List.mem_append.mp hm with hmm | hmm
            · rcases List.mem_append.mp hmm with hmm2 | hmm2
              · rcases List.mem_append.mp hmm2 with hmm3 | hmm3
                · rcases List.mem_append.mp hmm3 with hm1 | hm1
                  · have hc := handlerContract_get_instance_metadata ipF true lv
                      (by rw [h1]; exact hm1) hge
                    rw [h1] at hc
                    exact absurd hc (by simp)
                  · simp [logINFO, logERROR] at hm1 hge
                    omega
                · have hc := handlerContract_instance_user_data jsonLoads udF lv
                    (by rw [h2]; exact hmm3) hge
                  rw [h2] at hc
                  exact absurd hc (by simp)
              · have := scylla_yaml_set_logs_all_info _ _ lv hmm2
                rw [this] at hge
                simp [logINFO, logERROR] at hge
            · exact handlerContract_run_post_configuration_script
                userData b64decode pyInt runShell lv hmm hge

/-- Claim C7: for every environment, every log record emitted at ERROR
severity or above during a `configure()` run means the process
terminated with exit code 1; and a run that completes all steps
normally has exit code 0 and emitted no record at ERROR severity or
above. -/
theorem error_log_exits (ipF udF : FetchResult)
    (jsonLoads : String → Option Dict) (b64decode : Val → Option String)
    (pyInt : Val → Option Int) (runShell : String → Int → ScriptExec)
    (cs : ClassState) (fs : FsState) (p : Outcome Unit × List Nat)
    (hp : p = configure_run ipF udF jsonLoads b64decode pyInt runShell cs fs) :
    (∀ lv, lv ∈ p.2 → logERROR ≤ lv →
      p.1 = Outcome.exit 1 ∧ processExitCode p.1 = 1) ∧
    (p.1 = Outcome.ok () →
      processExitCode p.1 = 0 ∧ ∀ lv, lv ∈ p.2 → lv < logERROR) := by
  subst hp
  have hmain := handlerContract_configure_run ipF udF jsonLoads b64decode
    pyInt runShell cs fs
  constructor
  · intro lv hm hge
    have h := hmain lv hm hge
    exact ⟨h, by rw [h]; rfl⟩
  · intro hok
    refine ⟨by rw [hok]; rfl, ?_⟩
    intro lv hm
    by_contra hlt
    push_neg at hlt
    rw [hmain lv hm hlt] at hok
    exact Outcome.noConfusion hok

theorem error_log_exits_witness :
    (configure_run (FetchResult.ok "10.0.0.1") (FetchResult.ok "x")
      (fun _ => some [("post_configuration_script", Val.str "ZXhpdCA4NA==")])
      (fun _ => some "exit 84") (fun _ => some 600)
      (fun _ _ => ScriptExec.calledProcessError) ⟨[]⟩ ⟨some [], none⟩).1
      = Outcome.exit 1 ∧
    processExitCode (configure_run (FetchResult.ok "10.0.0.1") (FetchResult.ok "x")
      (fun _ => some [("post_configuration_script", Val.str "ZXhpdCA4NA==")])
      (fun _ => some "exit 84") (fun _ => some 600)
      (fun _ _ => ScriptExec.calledProcessError) ⟨[]⟩ ⟨some [], none⟩).1 = 1 :=
  (error_log_exits (FetchResult.ok "10.0.0.1") (FetchResult.ok "x")
    (fun _ => some [("post_configuration_script", Val.str "ZXhpdCA4NA==")])
    (fun _ => some "exit 84") (fun _ => some 600)
    (fun _ _ => ScriptExec.calledProcessError) ⟨[]⟩ ⟨some [], none⟩
    _ rfl).1 logERROR (by decide) (by decide)

end ScyllaAmi
